import Mathlib

/-!
Verification of the Nexus-Prime MCDA scoring and vendor-ranking engine.

The repository's visible files are the React presentation layer; the scoring
engine itself (normalizer, criterion scorers, MCDA aggregator, ranker,
weakness selector) is specified in spec.md sections 3 to 7 but its code is
not among the provided files, so those components are modelled here from the
spec's words.  The grade function of the score gauge
(src/app/components/Sidebar.js, `getGrade`) is embedded directly from the
source.
-/

namespace NexusPrime

/-- Brand tier enumeration from the spec's data model (Tier1/Tier2/Tier3). -/
inductive BrandTier
  | tier1
  | tier2
  | tier3
deriving DecidableEq, Repr

/-- Overall risk level enumeration (Low/Moderate/High). -/
inductive RiskLevel
  | low
  | moderate
  | high
deriving DecidableEq, Repr

/-- ESG classification tiers used by the quality scorer's ordered tier table. -/
inductive EsgClass
  | leader
  | average
  | laggard
  | unknown
deriving DecidableEq, Repr

/-- Modelled from the spec: the `VendorRecord` fields the criterion scorers
read (section 3 data model; engine code is not in the repository's files).
Costs and days are rationals, already normalized upstream. -/
structure VendorRecord where
  vendor_name : String
  true_total_landed_cost : ℚ
  normalized_delivery_days : ℚ
  customer_rating_out_of_5 : ℚ
  esg_score_classification : EsgClass
  brand_tier : BrandTier
  certifications_detected : List String
  overall_risk_level : RiskLevel
  hidden_clauses_detected : List String
deriving DecidableEq, Repr

/-- `ScoreBreakdown`: the four per-criterion sub-scores. -/
structure ScoreBreakdown where
  cost_score : ℚ
  quality_score : ℚ
  speed_score : ℚ
  risk_score : ℚ
deriving DecidableEq, Repr

/-- `BuyerPriorities`: one weight per criterion. -/
structure BuyerPriorities where
  cost : ℚ
  quality : ℚ
  speed : ℚ
  risk : ℚ
deriving DecidableEq, Repr

/-- The engine's structured error taxonomy (spec section 7). -/
inductive EngineError
  | validationError
  | invalidWeightsError
deriving DecidableEq, Repr

/-- Largest landed cost in the cohort (0 when the cohort is empty; the
scorers only consult it on non-empty cohorts). -/
def cohortMaxCost (cohort : List VendorRecord) : ℚ :=
  ((cohort.map VendorRecord.true_total_landed_cost).maximum).unbot' 0

/-- Smallest landed cost in the cohort. -/
def cohortMinCost (cohort : List VendorRecord) : ℚ :=
  ((cohort.map VendorRecord.true_total_landed_cost).minimum).untop' 0

/-- Largest normalized delivery-day figure in the cohort. -/
def cohortMaxDays (cohort : List VendorRecord) : ℚ :=
  ((cohort.map VendorRecord.normalized_delivery_days).maximum).unbot' 0

/-- Smallest normalized delivery-day figure in the cohort. -/
def cohortMinDays (cohort : List VendorRecord) : ℚ :=
  ((cohort.map VendorRecord.normalized_delivery_days).minimum).untop' 0

/-- Clamp a raw score into [0, 100]. -/
def clampScore (x : ℚ) : ℚ :=
  max 0 (min 100 x)

/-- Modelled from the spec: cost score, inverse-linear against the cohort's
landed-cost range, with the degenerate case `max_cost == min_cost` scoring
every vendor 100 (spec section 4.2). -/
def costScore (cohort : List VendorRecord) (v : VendorRecord) : ℚ :=
  if cohortMaxCost cohort = cohortMinCost cohort then 100
  else 100 * (cohortMaxCost cohort - v.true_total_landed_cost)
    / (cohortMaxCost cohort - cohortMinCost cohort)

/-- Modelled from the spec: speed score, inverse-linear against the cohort's
delivery-day range, same degenerate-tie handling as the cost score. -/
def speedScore (cohort : List VendorRecord) (v : VendorRecord) : ℚ :=
  if cohortMaxDays cohort = cohortMinDays cohort then 100
  else 100 * (cohortMaxDays cohort - v.normalized_delivery_days)
    / (cohortMaxDays cohort - cohortMinDays cohort)

/-- ESG tier table from the spec: Leader 100, Average 60, Laggard 20,
Unknown 40. -/
def esgPoints : EsgClass → ℚ
  | .leader => 100
  | .average => 60
  | .laggard => 20
  | .unknown => 40

/-- Brand tier table from the spec: Tier1 100, Tier2 65, Tier3 30. -/
def brandPoints : BrandTier → ℚ
  | .tier1 => 100
  | .tier2 => 65
  | .tier3 => 30

/-- Normalizer default (spec section 4.1): a 0 rating means "unrated" and is
substituted with the neutral midpoint 2.5 for scoring only. -/
def ratingForScoring (r : ℚ) : ℚ :=
  if r = 0 then 5/2 else r

/-- Bounded certification bonus: +2 points per certification, capped at +10. -/
def certBonus (certs : List String) : ℚ :=
  min (2 * certs.length) 10

/-- Modelled from the spec: quality score, the weighted blend of rating
(40%), ESG (30%) and brand tier (30%) plus the certification bonus, clamped
to [0, 100] (spec section 4.2). -/
def qualityScore (v : VendorRecord) : ℚ :=
  clampScore
    (2/5 * (ratingForScoring v.customer_rating_out_of_5 / 5 * 100)
      + 3/10 * esgPoints v.esg_score_classification
      + 3/10 * brandPoints v.brand_tier
      + certBonus v.certifications_detected)

/-- Per-clause deduction of the risk scorer.  The spec leaves the magnitude
open ("fixed deduction per detected hidden clause", section 9 marks it as
configurable); the default policy here deducts 10 points per clause. -/
def hiddenClauseDeduction : ℚ := 10

/-- Risk-level deduction table from the spec: Low 0, Moderate 15, High 40. -/
def levelDeduction : RiskLevel → ℚ
  | .low => 0
  | .moderate => 15
  | .high => 40

/-- Number of deduction-carrying clauses: entries equal to the literal
sentinel "None detected" contribute zero deductions. -/
def detectedClauseCount (clauses : List String) : ℕ :=
  (clauses.filter (fun c => c ≠ "None detected")).length

/-- Modelled from the spec: risk score, 100 minus the per-clause deductions
minus the risk-level deduction, clamped to [0, 100] (spec section 4.2). -/
def riskScore (v : VendorRecord) : ℚ :=
  clampScore
    (100 - hiddenClauseDeduction * detectedClauseCount v.hidden_clauses_detected
      - levelDeduction v.overall_risk_level)

/-- The full per-vendor `ScoreBreakdown` over a cohort. -/
def score_breakdown (cohort : List VendorRecord) (v : VendorRecord) : ScoreBreakdown :=
  { cost_score := costScore cohort v
    quality_score := qualityScore v
    speed_score := speedScore cohort v
    risk_score := riskScore v }

/-- Weight-sum tolerance of the MCDA aggregator (1e-6). -/
def weightTolerance : ℚ := 1 / 1000000

/-- Modelled from the spec: validity of `BuyerPriorities` (spec section 4.3):
the four weights sum to 1 within tolerance 1e-6 and none is negative. -/
def validWeights (p : BuyerPriorities) : Prop :=
  |p.cost + p.quality + p.speed + p.risk - 1| ≤ weightTolerance
    ∧ 0 ≤ p.cost ∧ 0 ≤ p.quality ∧ 0 ≤ p.speed ∧ 0 ≤ p.risk

instance : DecidablePred validWeights := fun p => by
  unfold validWeights; infer_instance

/-- The weighted sum `Σ weight[c] * breakdown[c]` over the four criteria. -/
def weightedTotal (b : ScoreBreakdown) (p : BuyerPriorities) : ℚ :=
  p.cost * b.cost_score + p.quality * b.quality_score
    + p.speed * b.speed_score + p.risk * b.risk_score

/-- Modelled from the spec: the MCDA aggregator (spec section 4.3),
`(ScoreBreakdown, BuyerPriorities) → NexusTrustScore`, failing with
`InvalidWeightsError` on invalid weights. -/
def aggregate (b : ScoreBreakdown) (p : BuyerPriorities) : Except EngineError ℚ :=
  if validWeights p then .ok (weightedTotal b p) else .error .invalidWeightsError

/-- Modelled from the spec: `scoreOne` (spec section 6), the single-vendor
entry point returning the breakdown and the aggregated Nexus Trust Score. -/
def scoreOne (v : VendorRecord) (cohort : List VendorRecord) (p : BuyerPriorities) :
    Except EngineError (ScoreBreakdown × ℚ) :=
  (aggregate (score_breakdown cohort v) p).map (fun s => (score_breakdown cohort v, s))

/-- One scored vendor as the ranker sees it: its identifying name, its Nexus
Trust Score and its landed cost (the two tie-break keys). -/
structure ScoredVendor where
  vendor_name : String
  nexus_trust_score : ℚ
  true_total_landed_cost : ℚ
deriving DecidableEq, Repr

/-- The ranker's ordering as a Bool comparator: descending by score, ties by
lower landed cost, then by vendor name lexicographically (spec section 4.4). -/
def rankLE (a b : ScoredVendor) : Bool :=
  decide (b.nexus_trust_score < a.nexus_trust_score)
    || (decide (a.nexus_trust_score = b.nexus_trust_score)
      && (decide (a.true_total_landed_cost < b.true_total_landed_cost)
        || (decide (a.true_total_landed_cost = b.true_total_landed_cost)
          && decide (a.vendor_name ≤ b.vendor_name))))

/-- The ranker's ordering as a proposition: `a` may come before `b` exactly
when `a` has the strictly higher score, or scores tie and `a` has the
strictly lower landed cost, or both tie and `a`'s name is lexicographically
at most `b`'s. -/
def rankRel (a b : ScoredVendor) : Prop :=
  b.nexus_trust_score < a.nexus_trust_score
    ∨ (a.nexus_trust_score = b.nexus_trust_score
      ∧ (a.true_total_landed_cost < b.true_total_landed_cost
        ∨ (a.true_total_landed_cost = b.true_total_landed_cost
          ∧ a.vendor_name ≤ b.vendor_name)))

/-- Score one vendor of the cohort into a `ScoredVendor` (weights assumed
already validated by the caller). -/
def scoredOf (cohort : List VendorRecord) (p : BuyerPriorities) (v : VendorRecord) :
    ScoredVendor :=
  { vendor_name := v.vendor_name
    nexus_trust_score := weightedTotal (score_breakdown cohort v) p
    true_total_landed_cost := v.true_total_landed_cost }

/-- `ComparisonResult` (spec section 3): the ranked vendors, the
recommendation (none only for the never-produced empty ranking) and the
savings versus the most expensive vendor. -/
structure ComparisonResult where
  ranked_vendors : List ScoredVendor
  recommended_vendor_id : Option String
  savings_vs_most_expensive : ℚ
deriving DecidableEq, Repr

/-- The ranked vendor identifiers of a comparison result. -/
def rankedVendorIds (r : ComparisonResult) : List String :=
  r.ranked_vendors.map ScoredVendor.vendor_name

/-- Modelled from the spec: `compare` (spec sections 4.4 and 6) — fails with
`ValidationError` on an empty cohort, with `InvalidWeightsError` on invalid
priorities, and otherwise ranks the scored cohort, recommends the top vendor
and computes the floored savings against the most expensive vendor. -/
def compare (vendors : List VendorRecord) (p : BuyerPriorities) :
    Except EngineError ComparisonResult :=
  if vendors.isEmpty then .error .validationError
  else if validWeights p then
    let ranked := (vendors.map (scoredOf vendors p)).mergeSort rankLE
    .ok { ranked_vendors := ranked
          recommended_vendor_id := ranked.head?.map ScoredVendor.vendor_name
          savings_vs_most_expensive :=
            max 0 (cohortMaxCost vendors
              - ((ranked.head?.map ScoredVendor.true_total_landed_cost).getD 0)) }
  else .error .invalidWeightsError

/-- Modelled from the spec: the Negotiation Weakness Selector (spec section
4.5) — the criterion name with the minimum raw score, ties broken by the
fixed priority order cost, quality, speed, risk. -/
def weakest_dimension (b : ScoreBreakdown) : String :=
  if b.cost_score ≤ b.quality_score ∧ b.cost_score ≤ b.speed_score
      ∧ b.cost_score ≤ b.risk_score then "cost"
  else if b.quality_score ≤ b.speed_score ∧ b.quality_score ≤ b.risk_score then "quality"
  else if b.speed_score ≤ b.risk_score then "speed"
  else "risk"

/-- The raw score a criterion name selects from a breakdown. -/
def dimScore (b : ScoreBreakdown) : String → ℚ
  | "cost" => b.cost_score
  | "quality" => b.quality_score
  | "speed" => b.speed_score
  | _ => b.risk_score

/-- The score gauge's grade function, embedded from
src/app/components/Sidebar.js lines 83-91 (`getGrade`). -/
def getGrade (s : ℚ) : String :=
  if s ≥ 90 then "A+"
  else if s ≥ 80 then "A"
  else if s ≥ 70 then "B+"
  else if s ≥ 60 then "B"
  else if s ≥ 50 then "C"
  else if s ≥ 40 then "D"
  else "F"

/-- Numeric rank of a grade string, for stating monotonicity (F lowest). -/
def gradeRank : String → ℕ
  | "A+" => 6
  | "A" => 5
  | "B+" => 4
  | "B" => 3
  | "C" => 2
  | "D" => 1
  | _ => 0

/-- Concrete vendor A of the spec's example scenario (section 8): cost 1000,
10 days, rating 5, Low risk, no clauses. -/
def vendorA : VendorRecord :=
  { vendor_name := "Vendor A"
    true_total_landed_cost := 1000
    normalized_delivery_days := 10
    customer_rating_out_of_5 := 5
    esg_score_classification := .leader
    brand_tier := .tier1
    certifications_detected := []
    overall_risk_level := .low
    hidden_clauses_detected := ["None detected"] }

/-- Concrete vendor B of the spec's example scenario (section 8): cost 1200,
5 days, rating 3, Moderate risk, one clause. -/
def vendorB : VendorRecord :=
  { vendor_name := "Vendor B"
    true_total_landed_cost := 1200
    normalized_delivery_days := 5
    customer_rating_out_of_5 := 3
    esg_score_classification := .average
    brand_tier := .tier2
    certifications_detected := []
    overall_risk_level := .moderate
    hidden_clauses_detected := ["Auto-renewal clause"] }

/-- A vendor that maxes out all four criteria when alone in its cohort. -/
def idealVendor : VendorRecord :=
  { vendor_name := "Ideal"
    true_total_landed_cost := 100
    normalized_delivery_days := 5
    customer_rating_out_of_5 := 5
    esg_score_classification := .leader
    brand_tier := .tier1
    certifications_detected := []
    overall_risk_level := .low
    hidden_clauses_detected := ["None detected"] }

/-- A vendor with the same landed cost as `vendorTieB`, for the
identical-cost degenerate case. -/
def vendorTieA : VendorRecord :=
  { vendor_name := "Tie Alpha"
    true_total_landed_cost := 1000
    normalized_delivery_days := 10
    customer_rating_out_of_5 := 5
    esg_score_classification := .leader
    brand_tier := .tier1
    certifications_detected := []
    overall_risk_level := .low
    hidden_clauses_detected := ["None detected"] }

/-- A vendor with the same landed cost as `vendorTieA`. -/
def vendorTieB : VendorRecord :=
  { vendor_name := "Tie Beta"
    true_total_landed_cost := 1000
    normalized_delivery_days := 5
    customer_rating_out_of_5 := 3
    esg_score_classification := .average
    brand_tier := .tier2
    certifications_detected := []
    overall_risk_level := .moderate
    hidden_clauses_detected := ["Auto-renewal clause"] }

/-- The spec's example priorities {cost:.4, quality:.3, speed:.2, risk:.1}. -/
def samplePriorities : BuyerPriorities := ⟨2/5, 3/10, 1/5, 1/10⟩

/-- Priorities at the edge of the tolerance: the weights sum to 1 + 1e-6 and
are accepted by the validator. -/
def tolerancePriorities : BuyerPriorities := ⟨1, 1/1000000, 0, 0⟩

/-! ### Helper lemmas on list extrema -/

theorem le_maxQ {l : List ℚ} {x : ℚ} (hx : x ∈ l) : x ≤ (l.maximum).unbot' 0 := by
  have h := List.le_maximum_of_mem' hx
  cases hm : l.maximum with
  | bot => rw [hm] at h; exact absurd h (WithBot.not_coe_le_bot x)
  | coe m =>
    rw [hm] at h
    simpa [WithBot.unbot', WithBot.recBotCoe] using h

theorem minQ_le {l : List ℚ} {x : ℚ} (hx : x ∈ l) : (l.minimum).untop' 0 ≤ x := by
  have h := List.minimum_le_of_mem' hx
  cases hm : l.minimum with
  | top => rw [hm] at h; exact absurd h (WithTop.not_top_le_coe x)
  | coe m =>
    rw [hm] at h
    simpa [WithTop.untop', WithTop.recTopCoe] using h

theorem maximum_perm {l₁ l₂ : List ℚ} (h : l₁.Perm l₂) : l₁.maximum = l₂.maximum :=
  le_antisymm
    (List.maximum_le_of_forall_le fun a ha => List.le_maximum_of_mem' (h.mem_iff.mp ha))
    (List.maximum_le_of_forall_le fun a ha => List.le_maximum_of_mem' (h.mem_iff.mpr ha))

theorem minimum_perm {l₁ l₂ : List ℚ} (h : l₁.Perm l₂) : l₁.minimum = l₂.minimum :=
  le_antisymm
    (List.le_minimum_of_forall_le fun a ha => List.minimum_le_of_mem' (h.mem_iff.mpr ha))
    (List.le_minimum_of_forall_le fun a ha => List.minimum_le_of_mem' (h.mem_iff.mp ha))

theorem maxQ_const {l : List ℚ} {c : ℚ} (hne : l ≠ []) (hall : ∀ x ∈ l, x = c) :
    (l.maximum).unbot' 0 = c := by
  obtain ⟨x, hx⟩ := List.exists_mem_of_ne_nil l hne
  have hm : l.maximum = (c : WithBot ℚ) := by
    rw [List.maximum_eq_coe_iff]
    exact ⟨(hall x hx) ▸ hx, fun a ha => le_of_eq (hall a ha)⟩
  rw [hm]
  simp [WithBot.unbot', WithBot.recBotCoe]

theorem minQ_const {l : List ℚ} {c : ℚ} (hne : l ≠ []) (hall : ∀ x ∈ l, x = c) :
    (l.minimum).untop' 0 = c := by
  obtain ⟨x, hx⟩ := List.exists_mem_of_ne_nil l hne
  have hm : l.minimum = (c : WithTop ℚ) := by
    rw [List.minimum_eq_coe_iff]
    exact ⟨(hall x hx) ▸ hx, fun a ha => le_of_eq (hall a ha).symm⟩
  rw [hm]
  simp [WithTop.untop', WithTop.recTopCoe]

theorem cohortMaxCost_perm {l₁ l₂ : List VendorRecord} (h : l₁.Perm l₂) :
    cohortMaxCost l₁ = cohortMaxCost l₂ := by
  unfold cohortMaxCost
  rw [maximum_perm (h.map VendorRecord.true_total_landed_cost)]

theorem cohortMinCost_perm {l₁ l₂ : List VendorRecord} (h : l₁.Perm l₂) :
    cohortMinCost l₁ = cohortMinCost l₂ := by
  unfold cohortMinCost
  rw [minimum_perm (h.map VendorRecord.true_total_landed_cost)]

theorem cohortMaxDays_perm {l₁ l₂ : List VendorRecord} (h : l₁.Perm l₂) :
    cohortMaxDays l₁ = cohortMaxDays l₂ := by
  unfold cohortMaxDays
  rw [maximum_perm (h.map VendorRecord.normalized_delivery_days)]

theorem cohortMinDays_perm {l₁ l₂ : List VendorRecord} (h : l₁.Perm l₂) :
    cohortMinDays l₁ = cohortMinDays l₂ := by
  unfold cohortMinDays
  rw [minimum_perm (h.map VendorRecord.normalized_delivery_days)]

theorem cohortCost_mem_bounds {cohort : List VendorRecord} {v : VendorRecord}
    (hv : v ∈ cohort) :
    cohortMinCost cohort ≤ v.true_total_landed_cost
      ∧ v.true_total_landed_cost ≤ cohortMaxCost cohort := by
  have hx : v.true_total_landed_cost ∈ cohort.map VendorRecord.true_total_landed_cost :=
    List.mem_map_of_mem _ hv
  exact ⟨minQ_le hx, le_maxQ hx⟩

theorem cohortDays_mem_bounds {cohort : List VendorRecord} {v : VendorRecord}
    (hv : v ∈ cohort) :
    cohortMinDays cohort ≤ v.normalized_delivery_days
      ∧ v.normalized_delivery_days ≤ cohortMaxDays cohort := by
  have hx : v.normalized_delivery_days ∈ cohort.map VendorRecord.normalized_delivery_days :=
    List.mem_map_of_mem _ hv
  exact ⟨minQ_le hx, le_maxQ hx⟩

/-! ### Helper lemmas on the ranking order -/

theorem rankLE_iff (a b : ScoredVendor) : rankLE a b = true ↔ rankRel a b := by
  unfold rankLE rankRel
  simp only [Bool.or_eq_true, Bool.and_eq_true, decide_eq_true_eq]

theorem rankRel_total (a b : ScoredVendor) : rankRel a b ∨ rankRel b a := by
  unfold rankRel
  rcases lt_trichotomy a.nexus_trust_score b.nexus_trust_score with h | h | h
  · exact Or.inr (Or.inl h)
  · rcases lt_trichotomy a.true_total_landed_cost b.true_total_landed_cost with h2 | h2 | h2
    · exact Or.inl (Or.inr ⟨h, Or.inl h2⟩)
    · rcases le_total a.vendor_name b.vendor_name with h3 | h3
      · exact Or.inl (Or.inr ⟨h, Or.inr ⟨h2, h3⟩⟩)
      · exact Or.inr (Or.inr ⟨h.symm, Or.inr ⟨h2.symm, h3⟩⟩)
    · exact Or.inr (Or.inr ⟨h.symm, Or.inl h2⟩)
  · exact Or.inl (Or.inl h)

theorem rankRel_trans (a b c : ScoredVendor) (hab : rankRel a b) (hbc : rankRel b c) :
    rankRel a c := by
  unfold rankRel at *
  rcases hab with h1 | ⟨h1, h1'⟩
  · rcases hbc with h2 | ⟨h2, _⟩
    · exact Or.inl (h2.trans h1)
    · exact Or.inl (h2 ▸ h1)
  · rcases hbc with h2 | ⟨h2, h2'⟩
    · exact Or.inl (h1 ▸ h2)
    · refine Or.inr ⟨h1.trans h2, ?_⟩
      rcases h1' with h3 | ⟨h3, h3'⟩
      · rcases h2' with h4 | ⟨h4, _⟩
        · exact Or.inl (h3.trans h4)
        · exact Or.inl (h4 ▸ h3)
      · rcases h2' with h4 | ⟨h4, h4'⟩
        · exact Or.inl (h3 ▸ h4)
        · exact Or.inr ⟨h3.trans h4, h3'.trans h4'⟩

theorem rankRel_antisymm (a b : ScoredVendor) (hab : rankRel a b) (hba : rankRel b a) :
    a = b := by
  unfold rankRel at *
  rcases hab with h1 | ⟨h1, h1'⟩
  · rcases hba with h2 | ⟨h2, _⟩
    · exact absurd (h1.trans h2) (lt_irrefl _)
    · exact absurd h1 (h2 ▸ lt_irrefl _)
  · rcases hba with h2 | ⟨h2, h2'⟩
    · exact absurd (h1 ▸ h2) (lt_irrefl _)
    · rcases h1' with h3 | ⟨h3, h3'⟩
      · rcases h2' with h4 | ⟨h4, _⟩
        · exact absurd (h3.trans h4) (lt_irrefl _)
        · exact absurd h3 (h4 ▸ lt_irrefl _)
      · rcases h2' with h4 | ⟨h4, h4'⟩
        · exact absurd (h3 ▸ h4) (lt_irrefl _)
        · cases a
          cases b
          simp only [ScoredVendor.mk.injEq]
          exact ⟨le_antisymm h3' h4', h1, h3⟩

theorem rankLE_trans_bool (a b c : ScoredVendor)
    (hab : rankLE a b = true) (hbc : rankLE b c = true) : rankLE a c = true :=
  (rankLE_iff a c).mpr (rankRel_trans a b c ((rankLE_iff a b).mp hab) ((rankLE_iff b c).mp hbc))

theorem rankLE_total_bool (a b : ScoredVendor) : (rankLE a b || rankLE b a) = true := by
  rcases rankRel_total a b with h | h
  · simp [(rankLE_iff a b).mpr h]
  · simp [(rankLE_iff b a).mpr h]

theorem ranked_sorted (l : List ScoredVendor) :
    (l.mergeSort rankLE).Sorted rankRel := by
  have h := List.sorted_mergeSort rankLE_trans_bool rankLE_total_bool l
  exact List.Pairwise.imp (fun hab => (rankLE_iff _ _).mp hab) h

theorem eq_of_perm_of_sorted_rank {l₁ l₂ : List ScoredVendor}
    (hp : l₁.Perm l₂) (h₁ : l₁.Sorted rankRel) (h₂ : l₂.Sorted rankRel) : l₁ = l₂ := by
  haveI : IsAntisymm ScoredVendor rankRel := ⟨rankRel_antisymm⟩
  exact List.eq_of_perm_of_sorted hp h₁ h₂

/-! ### Helper lemmas on `compare` -/

theorem compare_ok {vendors : List VendorRecord} {p : BuyerPriorities}
    (hne : vendors ≠ []) (hw : validWeights p) :
    compare vendors p = Except.ok
      { ranked_vendors := (vendors.map (scoredOf vendors p)).mergeSort rankLE
        recommended_vendor_id :=
          ((vendors.map (scoredOf vendors p)).mergeSort rankLE).head?.map
            ScoredVendor.vendor_name
        savings_vs_most_expensive :=
          max 0 (cohortMaxCost vendors
            - ((((vendors.map (scoredOf vendors p)).mergeSort rankLE).head?.map
                ScoredVendor.true_total_landed_cost).getD 0)) } := by
  unfold compare
  rw [if_neg (by simp [hne]), if_pos hw]

theorem ranked_ne_nil {vendors : List VendorRecord} {p : BuyerPriorities}
    (hne : vendors ≠ []) :
    (vendors.map (scoredOf vendors p)).mergeSort rankLE ≠ [] := by
  intro h
  have hperm := List.mergeSort_perm (vendors.map (scoredOf vendors p)) rankLE
  rw [h] at hperm
  have := hperm.symm.length_eq
  simp at this
  exact hne this

/-! ### C1: the MCDA aggregator -/

/-- C1: The MCDA aggregator returns the weighted sum
`Σ weight[c] * breakdown[c]` over the four criteria exactly when the four
weights sum to 1 within tolerance 1e-6 and none is negative, fails with
`InvalidWeightsError` exactly otherwise, and in particular the priorities
{cost:0.5, quality:0.5, speed:0.1, risk:0.1} are rejected. -/
theorem C1_mcda_aggregator (b : ScoreBreakdown) (p : BuyerPriorities) :
    (validWeights p →
      aggregate b p = Except.ok
        (p.cost * b.cost_score + p.quality * b.quality_score
          + p.speed * b.speed_score + p.risk * b.risk_score))
    ∧ (¬ validWeights p → aggregate b p = Except.error EngineError.invalidWeightsError)
    ∧ aggregate b ⟨1/2, 1/2, 1/10, 1/10⟩ = Except.error EngineError.invalidWeightsError := by
  refine ⟨fun hw => ?_, fun hw => ?_, ?_⟩
  · unfold aggregate weightedTotal
    rw [if_pos hw]
  · unfold aggregate
    rw [if_neg hw]
  · unfold aggregate
    rw [if_neg]
    intro h
    have h1 := h.1
    norm_num [weightTolerance, abs_le] at h1

/-! ### C9: empty cohort -/

/-- C9: `compare` called with an empty vendors list fails with
`ValidationError`, a structured error rather than a partial result. -/
theorem C9_empty_cohort (p : BuyerPriorities) :
    compare [] p = Except.error EngineError.validationError := by
  unfold compare
  simp

/-! ### C2: the cost scorer -/

/-- C2: The cost score of every vendor in a cohort equals
`100 * (max_cost - this_cost) / (max_cost - min_cost)` except in the
degenerate case `max_cost == min_cost`, where every vendor scores 100; in
particular a cohort of identical landed costs gives every vendor 100. -/
theorem C2_cost_score (cohort : List VendorRecord) (v : VendorRecord) (hv : v ∈ cohort) :
    (cohortMaxCost cohort ≠ cohortMinCost cohort →
      costScore cohort v =
        100 * (cohortMaxCost cohort - v.true_total_landed_cost)
          / (cohortMaxCost cohort - cohortMinCost cohort))
    ∧ (cohortMaxCost cohort = cohortMinCost cohort → costScore cohort v = 100)
    ∧ ((∀ w ∈ cohort, w.true_total_landed_cost = v.true_total_landed_cost) →
        costScore cohort v = 100) := by
  refine ⟨fun hne => ?_, fun he => ?_, fun hall => ?_⟩
  · unfold costScore
    rw [if_neg hne]
  · unfold costScore
    rw [if_pos he]
  · have hnil : cohort ≠ [] := by
      intro h
      rw [h] at hv
      exact absurd hv (List.not_mem_nil v)
    have hmapall : ∀ x ∈ cohort.map VendorRecord.true_total_landed_cost,
        x = v.true_total_landed_cost := by
      intro x hx
      obtain ⟨w, hw, rfl⟩ := List.mem_map.mp hx
      exact hall w hw
    have hmapnil : cohort.map VendorRecord.true_total_landed_cost ≠ [] := by
      simp [hnil]
    have hmax : cohortMaxCost cohort = v.true_total_landed_cost :=
      maxQ_const hmapnil hmapall
    have hmin : cohortMinCost cohort = v.true_total_landed_cost :=
      minQ_const hmapnil hmapall
    unfold costScore
    rw [if_pos (hmax.trans hmin.symm)]

/-- C2 witness: a concrete two-vendor cohort with identical landed costs. -/
theorem C2_cost_score_witness :
    (cohortMaxCost [vendorTieA, vendorTieB] ≠ cohortMinCost [vendorTieA, vendorTieB] →
      costScore [vendorTieA, vendorTieB] vendorTieA =
        100 * (cohortMaxCost [vendorTieA, vendorTieB]
            - vendorTieA.true_total_landed_cost)
          / (cohortMaxCost [vendorTieA, vendorTieB]
            - cohortMinCost [vendorTieA, vendorTieB]))
    ∧ (cohortMaxCost [vendorTieA, vendorTieB] = cohortMinCost [vendorTieA, vendorTieB] →
        costScore [vendorTieA, vendorTieB] vendorTieA = 100)
    ∧ ((∀ w ∈ [vendorTieA, vendorTieB],
          w.true_total_landed_cost = vendorTieA.true_total_landed_cost) →
        costScore [vendorTieA, vendorTieB] vendorTieA = 100) :=
  C2_cost_score [vendorTieA, vendorTieB] vendorTieA (by simp)

/-! ### C6: the risk scorer -/

theorem levelDeduction_nonneg (r : RiskLevel) : 0 ≤ levelDeduction r := by
  cases r <;> norm_num [levelDeduction]

theorem clampScore_bounds (x : ℚ) : 0 ≤ clampScore x ∧ clampScore x ≤ 100 := by
  unfold clampScore
  exact ⟨le_max_left 0 _, max_le (by norm_num) (min_le_left 100 x)⟩

/-- C6: The risk score is 100 minus a fixed per-clause deduction — where the
sentinel list ["None detected"] contributes zero deductions — minus the
level deduction (Low 0, Moderate 15, High 40), clamped below at 0 and lying
within [0, 100]. -/
theorem C6_risk_score (v : VendorRecord) :
    riskScore v =
      max 0 (min 100 (100
        - hiddenClauseDeduction * detectedClauseCount v.hidden_clauses_detected
        - levelDeduction v.overall_risk_level))
    ∧ (v.hidden_clauses_detected = ["None detected"] →
        riskScore v = max 0 (100 - levelDeduction v.overall_risk_level))
    ∧ levelDeduction RiskLevel.low = 0
    ∧ levelDeduction RiskLevel.moderate = 15
    ∧ levelDeduction RiskLevel.high = 40
    ∧ 0 ≤ riskScore v ∧ riskScore v ≤ 100 := by
  refine ⟨rfl, fun hs => ?_, rfl, rfl, rfl,
    (clampScore_bounds _).1, (clampScore_bounds _).2⟩
  unfold riskScore detectedClauseCount clampScore
  rw [hs]
  have hcount : (["None detected"].filter (fun c => c ≠ "None detected")).length = 0 := by
    simp
  rw [hcount]
  have hmin : min 100 (100 - hiddenClauseDeduction * (0 : ℕ)
      - levelDeduction v.overall_risk_level)
      = 100 - levelDeduction v.overall_risk_level := by
    push_cast
    rw [mul_zero, sub_zero]
    exact min_eq_right (by linarith [levelDeduction_nonneg v.overall_risk_level])
  rw [hmin]

/-! ### C8: the negotiation weakness selector -/

/-- C8: The weakness selector returns the criterion name with the minimum
raw score; when several criteria tie for the minimum, the fixed priority
order cost, quality, speed, risk decides (cost chosen first). -/
theorem C8_weakest_dimension (b : ScoreBreakdown) :
    (weakest_dimension b = "cost" ∨ weakest_dimension b = "quality"
      ∨ weakest_dimension b = "speed" ∨ weakest_dimension b = "risk")
    ∧ dimScore b (weakest_dimension b)
        = min (min b.cost_score b.quality_score) (min b.speed_score b.risk_score)
    ∧ (b.cost_score = min (min b.cost_score b.quality_score) (min b.speed_score b.risk_score) →
        weakest_dimension b = "cost")
    ∧ (weakest_dimension b ≠ "cost" →
        b.quality_score = min (min b.cost_score b.quality_score) (min b.speed_score b.risk_score) →
        weakest_dimension b = "quality")
    ∧ (weakest_dimension b ≠ "cost" → weakest_dimension b ≠ "quality" →
        b.speed_score = min (min b.cost_score b.quality_score) (min b.speed_score b.risk_score) →
        weakest_dimension b = "speed") := by
  unfold weakest_dimension
  split_ifs with h1 h2 h3
  · obtain ⟨h1a, h1b, h1c⟩ := h1
    have hmin : min (min b.cost_score b.quality_score) (min b.speed_score b.risk_score)
        = b.cost_score := by
      rw [min_eq_left h1a]
      exact min_eq_left (le_min h1b h1c)
    exact ⟨Or.inl rfl, by rw [hmin]; rfl, fun _ => rfl, fun hc => absurd rfl hc,
      fun hc _ => absurd rfl hc⟩
  · have h1' : b.quality_score < b.cost_score ∨ b.speed_score < b.cost_score
        ∨ b.risk_score < b.cost_score := by
      rcases not_and_or.mp h1 with h | h
      · exact Or.inl (not_le.mp h)
      · rcases not_and_or.mp h with h | h
        · exact Or.inr (Or.inl (not_le.mp h))
        · exact Or.inr (Or.inr (not_le.mp h))
    obtain ⟨h2a, h2b⟩ := h2
    have hqc : b.quality_score < b.cost_score := by
      rcases h1' with h | h | h
      · exact h
      · linarith
      · linarith
    have hmin : min (min b.cost_score b.quality_score) (min b.speed_score b.risk_score)
        = b.quality_score := by
      rw [min_eq_right hqc.le]
      exact min_eq_left (le_min h2a h2b)
    refine ⟨Or.inr (Or.inl rfl), by rw [hmin]; rfl, fun hc => ?_, fun _ _ => rfl,
      fun _ hc _ => absurd rfl hc⟩
    rw [hmin] at hc
    linarith
  · have h1' : b.quality_score < b.cost_score ∨ b.speed_score < b.cost_score
        ∨ b.risk_score < b.cost_score := by
      rcases not_and_or.mp h1 with h | h
      · exact Or.inl (not_le.mp h)
      · rcases not_and_or.mp h with h | h
        · exact Or.inr (Or.inl (not_le.mp h))
        · exact Or.inr (Or.inr (not_le.mp h))
    have h2' : b.speed_score < b.quality_score ∨ b.risk_score < b.quality_score := by
      rcases not_and_or.mp h2 with h | h
      · exact Or.inl (not_le.mp h)
      · exact Or.inr (not_le.mp h)
    have hsq : b.speed_score < b.quality_score := by
      rcases h2' with h | h
      · exact h
      · linarith
    have hsc : b.speed_score < b.cost_score := by
      rcases h1' with h | h | h
      · linarith
      · exact h
      · linarith
    have hmin : min (min b.cost_score b.quality_score) (min b.speed_score b.risk_score)
        = b.speed_score := by
      rw [min_eq_left h3, min_comm]
      exact min_eq_left (le_min hsc.le hsq.le)
    refine ⟨Or.inr (Or.inr (Or.inl rfl)), by rw [hmin]; rfl, fun hc => ?_,
      fun _ hc => ?_, fun _ _ _ => rfl⟩
    · rw [hmin] at hc
      linarith
    · rw [hmin] at hc
      linarith
  · have h3' : b.risk_score < b.speed_score := not_le.mp h3
    have h1' : b.quality_score < b.cost_score ∨ b.speed_score < b.cost_score
        ∨ b.risk_score < b.cost_score := by
      rcases not_and_or.mp h1 with h | h
      · exact Or.inl (not_le.mp h)
      · rcases not_and_or.mp h with h | h
        · exact Or.inr (Or.inl (not_le.mp h))
        · exact Or.inr (Or.inr (not_le.mp h))
    have h2' : b.speed_score < b.quality_score ∨ b.risk_score < b.quality_score := by
      rcases not_and_or.mp h2 with h | h
      · exact Or.inl (not_le.mp h)
      · exact Or.inr (not_le.mp h)
    have hrq : b.risk_score < b.quality_score := by
      rcases h2' with h | h
      · linarith
      · exact h
    have hrc : b.risk_score < b.cost_score := by
      rcases h1' with h | h | h
      · linarith
      · linarith
      · exact h
    have hmin : min (min b.cost_score b.quality_score) (min b.speed_score b.risk_score)
        = b.risk_score := by
      rw [min_eq_right h3'.le, min_eq_right]
      exact le_min hrc.le hrq.le
    refine ⟨Or.inr (Or.inr (Or.inr rfl)), by rw [hmin]; rfl, fun hc => ?_,
      fun _ hc => ?_, fun _ _ hc => ?_⟩
    · rw [hmin] at hc
      linarith
    · rw [hmin] at hc
      linarith
    · rw [hmin] at hc
      linarith

/-! ### C10: the score gauge's grade function -/

theorem getGrade_char (u : ℚ) :
    (getGrade u = "A+" ↔ 90 ≤ u)
    ∧ (getGrade u = "A" ↔ 80 ≤ u ∧ u < 90)
    ∧ (getGrade u = "B+" ↔ 70 ≤ u ∧ u < 80)
    ∧ (getGrade u = "B" ↔ 60 ≤ u ∧ u < 70)
    ∧ (getGrade u = "C" ↔ 50 ≤ u ∧ u < 60)
    ∧ (getGrade u = "D" ↔ 40 ≤ u ∧ u < 50)
    ∧ (getGrade u = "F" ↔ u < 40) := by
  unfold getGrade
  split_ifs with h1 h2 h3 h4 h5 h6 <;>
    refine ⟨?_, ?_, ?_, ?_, ?_, ?_, ?_⟩ <;>
    simp_all <;>
    first
      | linarith
      | (constructor <;> linarith)
      | (push_neg; intros; linarith)
      | (intros; linarith)

theorem gradeRank_getGrade (u : ℚ) :
    gradeRank (getGrade u) =
      if u ≥ 90 then 6 else if u ≥ 80 then 5 else if u ≥ 70 then 4
      else if u ≥ 60 then 3 else if u ≥ 50 then 2 else if u ≥ 40 then 1 else 0 := by
  unfold getGrade
  split_ifs <;> rfl

set_option maxHeartbeats 1000000 in
/-- C10: The gauge's grade function is total (always one of A+, A, B+, B, C,
D, F, determined by the thresholds 90, 80, 70, 60, 50, 40) and monotone: a
higher score never receives a strictly lower grade. -/
theorem C10_getGrade_total_monotone (s t : ℚ) (hst : s ≤ t) :
    (getGrade s = "A+" ∨ getGrade s = "A" ∨ getGrade s = "B+" ∨ getGrade s = "B"
      ∨ getGrade s = "C" ∨ getGrade s = "D" ∨ getGrade s = "F")
    ∧ (getGrade s = "A+" ↔ 90 ≤ s)
    ∧ (getGrade s = "A" ↔ 80 ≤ s ∧ s < 90)
    ∧ (getGrade s = "B+" ↔ 70 ≤ s ∧ s < 80)
    ∧ (getGrade s = "B" ↔ 60 ≤ s ∧ s < 70)
    ∧ (getGrade s = "C" ↔ 50 ≤ s ∧ s < 60)
    ∧ (getGrade s = "D" ↔ 40 ≤ s ∧ s < 50)
    ∧ (getGrade s = "F" ↔ s < 40)
    ∧ gradeRank (getGrade s) ≤ gradeRank (getGrade t) := by
  obtain ⟨c1, c2, c3, c4, c5, c6, c7⟩ := getGrade_char s
  refine ⟨?_, c1, c2, c3, c4, c5, c6, c7, ?_⟩
  · unfold getGrade
    split_ifs <;> simp
  · rw [gradeRank_getGrade s, gradeRank_getGrade t]
    split_ifs <;> linarith

/-- C10 witness: a concrete pair of scores 45 ≤ 95. -/
theorem C10_getGrade_witness :
    (getGrade 45 = "A+" ∨ getGrade 45 = "A" ∨ getGrade 45 = "B+" ∨ getGrade 45 = "B"
      ∨ getGrade 45 = "C" ∨ getGrade 45 = "D" ∨ getGrade 45 = "F")
    ∧ (getGrade 45 = "A+" ↔ 90 ≤ (45 : ℚ))
    ∧ (getGrade 45 = "A" ↔ 80 ≤ (45 : ℚ) ∧ (45 : ℚ) < 90)
    ∧ (getGrade 45 = "B+" ↔ 70 ≤ (45 : ℚ) ∧ (45 : ℚ) < 80)
    ∧ (getGrade 45 = "B" ↔ 60 ≤ (45 : ℚ) ∧ (45 : ℚ) < 70)
    ∧ (getGrade 45 = "C" ↔ 50 ≤ (45 : ℚ) ∧ (45 : ℚ) < 60)
    ∧ (getGrade 45 = "D" ↔ 40 ≤ (45 : ℚ) ∧ (45 : ℚ) < 50)
    ∧ (getGrade 45 = "F" ↔ (45 : ℚ) < 40)
    ∧ gradeRank (getGrade 45) ≤ gradeRank (getGrade 95) :=
  C10_getGrade_total_monotone 45 95 (by norm_num)

/-! ### C4: score bounds -/

theorem inverseLinear_bounds {mx mn c : ℚ} (h1 : mn ≤ c) (h2 : c ≤ mx) :
    0 ≤ (if mx = mn then (100:ℚ) else 100 * (mx - c) / (mx - mn))
    ∧ (if mx = mn then (100:ℚ) else 100 * (mx - c) / (mx - mn)) ≤ 100 := by
  split_ifs with h
  · norm_num
  · have hpos : 0 < mx - mn := by
      have hle : mn ≤ mx := h1.trans h2
      rcases lt_or_eq_of_le hle with hlt | heq
      · linarith
      · exact absurd heq.symm h
    constructor
    · apply div_nonneg _ hpos.le
      linarith
    · rw [div_le_iff hpos]
      linarith

theorem costScore_bounds {cohort : List VendorRecord} {v : VendorRecord} (hv : v ∈ cohort) :
    0 ≤ costScore cohort v ∧ costScore cohort v ≤ 100 := by
  obtain ⟨h1, h2⟩ := cohortCost_mem_bounds hv
  unfold costScore
  exact inverseLinear_bounds h1 h2

theorem speedScore_bounds {cohort : List VendorRecord} {v : VendorRecord} (hv : v ∈ cohort) :
    0 ≤ speedScore cohort v ∧ speedScore cohort v ≤ 100 := by
  obtain ⟨h1, h2⟩ := cohortDays_mem_bounds hv
  unfold speedScore
  exact inverseLinear_bounds h1 h2

theorem weightedTotal_bounds {b : ScoreBreakdown} {p : BuyerPriorities}
    (hw : validWeights p)
    (hbc : 0 ≤ b.cost_score ∧ b.cost_score ≤ 100)
    (hbq : 0 ≤ b.quality_score ∧ b.quality_score ≤ 100)
    (hbs : 0 ≤ b.speed_score ∧ b.speed_score ≤ 100)
    (hbr : 0 ≤ b.risk_score ∧ b.risk_score ≤ 100) :
    0 ≤ weightedTotal b p ∧ weightedTotal b p ≤ 100 * (1 + weightTolerance) := by
  obtain ⟨hs, hc, hq, hsp, hr⟩ := hw
  have hsum := (abs_le.mp hs).2
  constructor
  · exact add_nonneg (add_nonneg (add_nonneg
      (mul_nonneg hc hbc.1) (mul_nonneg hq hbq.1))
      (mul_nonneg hsp hbs.1)) (mul_nonneg hr hbr.1)
  · have h1 : p.cost * b.cost_score ≤ p.cost * 100 :=
      mul_le_mul_of_nonneg_left hbc.2 hc
    have h2 : p.quality * b.quality_score ≤ p.quality * 100 :=
      mul_le_mul_of_nonneg_left hbq.2 hq
    have h3 : p.speed * b.speed_score ≤ p.speed * 100 :=
      mul_le_mul_of_nonneg_left hbs.2 hsp
    have h4 : p.risk * b.risk_score ≤ p.risk * 100 :=
      mul_le_mul_of_nonneg_left hbr.2 hr
    unfold weightedTotal
    unfold weightTolerance at hsum ⊢
    linarith

/-- C4 counterexample: the valid priorities {cost:1, quality:1e-6, speed:0,
risk:0} (sum 1 + 1e-6, inside the tolerance) applied to a single ideal
vendor whose breakdown is (100, 100, 100, 100) produce the Nexus Trust
Score 100 + 1/10000, which exceeds 100. -/
theorem C4_nexus_score_counterexample :
    validWeights tolerancePriorities
    ∧ scoreOne idealVendor [idealVendor] tolerancePriorities
        = Except.ok (⟨100, 100, 100, 100⟩, 100 + 1/10000)
    ∧ ¬ ((100 + 1/10000 : ℚ) ≤ 100) := by
  have hw : validWeights tolerancePriorities := by
    unfold validWeights tolerancePriorities weightTolerance
    rw [show (1 + 1/1000000 + 0 + 0 - 1 : ℚ) = 1/1000000 by norm_num]
    rw [abs_of_pos (by norm_num : (0:ℚ) < 1/1000000)]
    norm_num
  refine ⟨hw, ?_, by norm_num⟩
  have hb : score_breakdown [idealVendor] idealVendor = ⟨100, 100, 100, 100⟩ := by
    unfold score_breakdown costScore speedScore qualityScore riskScore idealVendor
    unfold cohortMaxCost cohortMinCost cohortMaxDays cohortMinDays
    simp [List.maximum_singleton, List.minimum_singleton, WithBot.unbot',
      WithBot.recBotCoe, WithTop.untop', WithTop.recTopCoe, clampScore,
      ratingForScoring, certBonus, esgPoints, brandPoints, levelDeduction,
      detectedClauseCount, hiddenClauseDeduction]
    norm_num
  unfold scoreOne aggregate
  rw [hb, if_pos hw]
  unfold weightedTotal tolerancePriorities
  norm_num [Except.map]

/-- C4 (amended): every value of the `ScoreBreakdown` of a vendor of any
cohort lies in [0, 100], and for every valid `BuyerPriorities` the resulting
Nexus Trust Score lies in [0, 100 * (1 + 1e-6)] — the weight-sum tolerance
lets the score exceed 100 by up to 1e-4, so the upper bound 100 of the
original claim holds only for weights summing to exactly 1. -/
theorem C4_score_bounds (cohort : List VendorRecord) (v : VendorRecord)
    (hv : v ∈ cohort) (p : BuyerPriorities) (hw : validWeights p) :
    (0 ≤ (score_breakdown cohort v).cost_score
      ∧ (score_breakdown cohort v).cost_score ≤ 100)
    ∧ (0 ≤ (score_breakdown cohort v).quality_score
      ∧ (score_breakdown cohort v).quality_score ≤ 100)
    ∧ (0 ≤ (score_breakdown cohort v).speed_score
      ∧ (score_breakdown cohort v).speed_score ≤ 100)
    ∧ (0 ≤ (score_breakdown cohort v).risk_score
      ∧ (score_breakdown cohort v).risk_score ≤ 100)
    ∧ scoreOne v cohort p = Except.ok (score_breakdown cohort v,
        weightedTotal (score_breakdown cohort v) p)
    ∧ 0 ≤ weightedTotal (score_breakdown cohort v) p
    ∧ weightedTotal (score_breakdown cohort v) p ≤ 100 * (1 + weightTolerance) := by
  have hbc : 0 ≤ (score_breakdown cohort v).cost_score
      ∧ (score_breakdown cohort v).cost_score ≤ 100 := costScore_bounds hv
  have hbq : 0 ≤ (score_breakdown cohort v).quality_score
      ∧ (score_breakdown cohort v).quality_score ≤ 100 := clampScore_bounds _
  have hbs : 0 ≤ (score_breakdown cohort v).speed_score
      ∧ (score_breakdown cohort v).speed_score ≤ 100 := speedScore_bounds hv
  have hbr : 0 ≤ (score_breakdown cohort v).risk_score
      ∧ (score_breakdown cohort v).risk_score ≤ 100 := clampScore_bounds _
  have htot := weightedTotal_bounds hw hbc hbq hbs hbr
  refine ⟨hbc, hbq, hbs, hbr, ?_, htot.1, htot.2⟩
  unfold scoreOne aggregate
  rw [if_pos hw]
  rfl

/-- C4 witness: the amended bounds instantiated on vendor A alone with the
spec's example priorities. -/
theorem C4_score_bounds_witness :
    (0 ≤ (score_breakdown [vendorA] vendorA).cost_score
      ∧ (score_breakdown [vendorA] vendorA).cost_score ≤ 100)
    ∧ (0 ≤ (score_breakdown [vendorA] vendorA).quality_score
      ∧ (score_breakdown [vendorA] vendorA).quality_score ≤ 100)
    ∧ (0 ≤ (score_breakdown [vendorA] vendorA).speed_score
      ∧ (score_breakdown [vendorA] vendorA).speed_score ≤ 100)
    ∧ (0 ≤ (score_breakdown [vendorA] vendorA).risk_score
      ∧ (score_breakdown [vendorA] vendorA).risk_score ≤ 100)
    ∧ scoreOne vendorA [vendorA] samplePriorities
        = Except.ok (score_breakdown [vendorA] vendorA,
          weightedTotal (score_breakdown [vendorA] vendorA) samplePriorities)
    ∧ 0 ≤ weightedTotal (score_breakdown [vendorA] vendorA) samplePriorities
    ∧ weightedTotal (score_breakdown [vendorA] vendorA) samplePriorities
        ≤ 100 * (1 + weightTolerance) :=
  C4_score_bounds [vendorA] vendorA (by simp) samplePriorities (by
    unfold validWeights samplePriorities weightTolerance
    rw [show ((2:ℚ)/5 + 3/10 + 1/5 + 1/10 - 1) = 0 by norm_num]
    norm_num)

/-! ### C3: ranking and recommendation -/

theorem samplePriorities_valid : validWeights samplePriorities := by
  unfold validWeights samplePriorities weightTolerance
  rw [show ((2:ℚ)/5 + 3/10 + 1/5 + 1/10 - 1) = 0 by norm_num]
  norm_num

/-- C3: For a non-empty cohort with valid priorities, the comparison ranks
the scored vendors descending by Nexus Trust Score with ties broken first by
lower landed cost and then by lexicographic vendor name (`rankRel`), the
ranked list is a permutation of the scored cohort, the recommendation is the
first element of the ranked list, and any two ranked vendors with equal
score and equal cost appear in lexicographic name order. -/
theorem C3_ranking (vendors : List VendorRecord) (p : BuyerPriorities)
    (hne : vendors ≠ []) (hw : validWeights p) :
    ∃ res, compare vendors p = Except.ok res
      ∧ res.ranked_vendors.Sorted rankRel
      ∧ res.ranked_vendors.Perm (vendors.map (scoredOf vendors p))
      ∧ res.recommended_vendor_id
          = res.ranked_vendors.head?.map ScoredVendor.vendor_name
      ∧ res.ranked_vendors.Pairwise (fun a b =>
          a.nexus_trust_score = b.nexus_trust_score →
            a.true_total_landed_cost = b.true_total_landed_cost →
            a.vendor_name ≤ b.vendor_name) := by
  refine ⟨_, compare_ok hne hw, ranked_sorted _, List.mergeSort_perm _ _, rfl, ?_⟩
  refine (ranked_sorted _).imp ?_
  intro a b hab hs hc
  rcases hab with h | ⟨_, h⟩
  · rw [hs] at h
    exact absurd h (lt_irrefl _)
  · rcases h with h | ⟨_, h⟩
    · rw [hc] at h
      exact absurd h (lt_irrefl _)
    · exact h

/-- C3 witness: the ranking contract instantiated on the spec's example
two-vendor cohort with the example priorities. -/
theorem C3_ranking_witness :
    ∃ res, compare [vendorA, vendorB] samplePriorities = Except.ok res
      ∧ res.ranked_vendors.Sorted rankRel
      ∧ res.ranked_vendors.Perm
          ([vendorA, vendorB].map (scoredOf [vendorA, vendorB] samplePriorities))
      ∧ res.recommended_vendor_id
          = res.ranked_vendors.head?.map ScoredVendor.vendor_name
      ∧ res.ranked_vendors.Pairwise (fun a b =>
          a.nexus_trust_score = b.nexus_trust_score →
            a.true_total_landed_cost = b.true_total_landed_cost →
            a.vendor_name ≤ b.vendor_name) :=
  C3_ranking [vendorA, vendorB] samplePriorities (by simp) samplePriorities_valid

/-! ### C7: savings versus the most expensive vendor -/

/-- C7: For every non-empty cohort (with valid priorities), the comparison's
`savings_vs_most_expensive` equals the maximum landed cost over the cohort
minus the recommended vendor's landed cost, floored at 0, and is therefore
non-negative. -/
theorem C7_savings (vendors : List VendorRecord) (p : BuyerPriorities)
    (hne : vendors ≠ []) (hw : validWeights p) :
    ∃ res top, compare vendors p = Except.ok res
      ∧ res.ranked_vendors.head? = some top
      ∧ res.recommended_vendor_id = some top.vendor_name
      ∧ res.savings_vs_most_expensive
          = max 0 (cohortMaxCost vendors - top.true_total_landed_cost)
      ∧ 0 ≤ res.savings_vs_most_expensive := by
  obtain ⟨top, tl, htop⟩ : ∃ top tl,
      (vendors.map (scoredOf vendors p)).mergeSort rankLE = top :: tl := by
    cases h : (vendors.map (scoredOf vendors p)).mergeSort rankLE with
    | nil => exact absurd h (ranked_ne_nil hne)
    | cons a l => exact ⟨a, l, rfl⟩
  refine ⟨_, top, compare_ok hne hw, ?_, ?_, ?_, ?_⟩
  · simp [htop]
  · simp [htop]
  · simp [htop]
  · exact le_max_left 0 _

/-- C7 witness: the savings contract instantiated on the spec's example
two-vendor cohort with the example priorities. -/
theorem C7_savings_witness :
    ∃ res top, compare [vendorA, vendorB] samplePriorities = Except.ok res
      ∧ res.ranked_vendors.head? = some top
      ∧ res.recommended_vendor_id = some top.vendor_name
      ∧ res.savings_vs_most_expensive
          = max 0 (cohortMaxCost [vendorA, vendorB] - top.true_total_landed_cost)
      ∧ 0 ≤ res.savings_vs_most_expensive :=
  C7_savings [vendorA, vendorB] samplePriorities (by simp) samplePriorities_valid

/-! ### C5: determinism and cohort-order independence -/

theorem score_breakdown_perm {l₁ l₂ : List VendorRecord} (h : l₁.Perm l₂)
    (v : VendorRecord) : score_breakdown l₁ v = score_breakdown l₂ v := by
  unfold score_breakdown costScore speedScore
  rw [cohortMaxCost_perm h, cohortMinCost_perm h, cohortMaxDays_perm h, cohortMinDays_perm h]

theorem scoredOf_perm {l₁ l₂ : List VendorRecord} (h : l₁.Perm l₂)
    (p : BuyerPriorities) : scoredOf l₁ p = scoredOf l₂ p := by
  funext v
  unfold scoredOf
  rw [score_breakdown_perm h v]

/-- C5: Scoring and comparison are deterministic and cohort-order
independent: presenting the same vendors in any two orderings yields the
same comparison result (hence identical ranked vendor ids) and identical
per-vendor scores. -/
theorem C5_order_independence (l₁ l₂ : List VendorRecord) (p : BuyerPriorities)
    (h : l₁.Perm l₂) :
    compare l₁ p = compare l₂ p
      ∧ ∀ v, scoreOne v l₁ p = scoreOne v l₂ p := by
  constructor
  · by_cases hnil : l₁ = []
    · have hnil₂ : l₂ = [] := (hnil ▸ h).nil_eq.symm
      rw [hnil, hnil₂]
    · have hnil₂ : l₂ ≠ [] := by
        intro h2
        exact hnil (h2 ▸ h).eq_nil
      by_cases hw : validWeights p
      · have hR : (l₁.map (scoredOf l₁ p)).mergeSort rankLE
            = (l₂.map (scoredOf l₂ p)).mergeSort rankLE := by
          apply eq_of_perm_of_sorted_rank ?_ (ranked_sorted _) (ranked_sorted _)
          refine (List.mergeSort_perm _ _).trans (List.Perm.trans ?_
            (List.mergeSort_perm _ _).symm)
          rw [scoredOf_perm h p]
          exact h.map (scoredOf l₂ p)
        rw [compare_ok hnil hw, compare_ok hnil₂ hw]
        rw [hR, cohortMaxCost_perm h]
      · have e1 : compare l₁ p = Except.error EngineError.invalidWeightsError := by
          unfold compare
          rw [if_neg (by simp [hnil]), if_neg hw]
        have e2 : compare l₂ p = Except.error EngineError.invalidWeightsError := by
          unfold compare
          rw [if_neg (by simp [hnil₂]), if_neg hw]
        rw [e1, e2]
  · intro v
    unfold scoreOne
    rw [score_breakdown_perm h v]

/-- C5 witness: the two orderings of the spec's example two-vendor cohort
give identical comparison results and identical per-vendor scores. -/
theorem C5_order_independence_witness :
    compare [vendorA, vendorB] samplePriorities
        = compare [vendorB, vendorA] samplePriorities
      ∧ ∀ v, scoreOne v [vendorA, vendorB] samplePriorities
          = scoreOne v [vendorB, vendorA] samplePriorities :=
  C5_order_independence [vendorA, vendorB] [vendorB, vendorA] samplePriorities
    (List.Perm.swap vendorB vendorA [])

end NexusPrime
